import Mathlib

/-!
Verification of the extraction-and-normalization pipeline of
`streamlit_app.py` (createuseraccount/creditcard).

The Python source is shallowly embedded: strings are `List Char` / `String`,
pandas `NaN` cells are `Option.none`, `pdfplumber` pages are an abstract
structure holding the values the code reads from them, exceptions raised by
the pipeline are `Except.error`.  Each definition carries a comment naming
the source lines it embeds.
-/

namespace CreditCard

/-- The whitespace characters recognised by Python `str.split()` and by the
`re` class `\s` on the ASCII range (the code never inspects wider Unicode
whitespace in a way the claims depend on). -/
def isPySpace (c : Char) : Bool :=
  c = ' ' || c = '\t' || c = '\n' || c = '\r' || c = '\x0b' || c = '\x0c'

/-- ASCII digit test, the `\d` of the source regexes restricted to ASCII. -/
def isDigitC (c : Char) : Bool :=
  48 ≤ c.toNat && c.toNat ≤ 57

/-- Numeric value of an ASCII digit. -/
def digitVal (c : Char) : Nat := c.toNat - 48

/-- Helper of `clean_text`: Python `text.split()` — split on whitespace runs,
discarding empty pieces.  `acc` is the reversed current word. -/
def wordsAux : List Char → List Char → List (List Char)
  | [], acc => if acc.isEmpty then [] else [acc.reverse]
  | c :: cs, acc =>
    if isPySpace c then
      if acc.isEmpty then wordsAux cs [] else acc.reverse :: wordsAux cs []
    else
      wordsAux cs (c :: acc)

/-- Python single-space join of a list of character lists. -/
def intercalateSp : List (List Char) → List Char
  | [] => []
  | [w] => w
  | w :: ws => w ++ ' ' :: intercalateSp ws

/-- `clean_text` (streamlit_app.py lines 8-12) on character lists:
the single-space join of `text.split()`, then `strip()`, a no-op because the
join never leaves leading or trailing whitespace. -/
def cleanTextL (l : List Char) : List Char :=
  intercalateSp (wordsAux l [])

/-- `clean_text` (streamlit_app.py lines 8-12) on `String`. -/
def clean_text (s : String) : String :=
  ⟨cleanTextL s.data⟩

/-- Is `pre` a prefix of `l`? (used for Python substring containment). -/
def isPrefL : List Char → List Char → Bool
  | [], _ => true
  | _ :: _, [] => false
  | a :: as, b :: bs => (a = b) && isPrefL as bs

/-- Python `needle in hay` substring containment. -/
def containsSub : List Char → List Char → Bool
  | hay, needle =>
    if isPrefL needle hay then true
    else
      match hay with
      | [] => false
      | _ :: t => containsSub t needle

/-- Attempted match of the date regex `\d{2}/\d{2}/\d{2,4}` anchored at the
head of the list; returns the matched length (the `{2,4}` year is greedy,
exactly as in Python `re`). -/
def matchDateAt : List Char → Option Nat
  | a :: b :: c :: d :: e :: f :: g :: h :: rest =>
    if isDigitC a && isDigitC b && (c = '/') && isDigitC d && isDigitC e
        && (f = '/') && isDigitC g && isDigitC h then
      some (8 + (match rest with
        | i :: j :: _ => if isDigitC i then (if isDigitC j then 2 else 1) else 0
        | [i] => if isDigitC i then 1 else 0
        | [] => 0))
    else none
  | _ => none

/-- `re.search(r'\d{2}/\d{2}/\d{2,4}', line)` (line 38): leftmost match,
returned as the matched text. -/
def findFirstDate : List Char → Option (List Char)
  | [] => none
  | l@(_ :: t) =>
    match matchDateAt l with
    | some n => some (l.take n)
    | none => findFirstDate t

/-- Attempted match of the amount regex `[\d,]+\.\d{2}` anchored at the head
of the list; `[\d,]+` must consume its whole maximal run because `.` is not
in the class, so no backtracking case remains. -/
def matchAmountAt (l : List Char) : Option Nat :=
  let run := l.takeWhile (fun c => isDigitC c || c = ',')
  if run.isEmpty then none
  else
    match l.drop run.length with
    | '.' :: a :: b :: _ => if isDigitC a && isDigitC b then some (run.length + 3) else none
    | _ => none

/-- `re.search(r'[\d,]+\.\d{2}', line)` (line 45): leftmost match, returned
as the matched text. -/
def findFirstAmount : List Char → Option (List Char)
  | [] => none
  | l@(_ :: t) =>
    match matchAmountAt l with
    | some n => some (l.take n)
    | none => findFirstAmount t

/-- `re.split(r'\s{2,}', line)`: separators are maximal whitespace runs of
length at least two; a single whitespace character stays inside its part.
`cur` is the reversed current part, `pend` the reversed pending whitespace
run not yet classified. -/
def splitWS : List Char → List Char → List Char → List (List Char)
  | [], cur, pend =>
    if 2 ≤ pend.length then [cur.reverse, []] else [(pend ++ cur).reverse]
  | c :: cs, cur, pend =>
    if isPySpace c then splitWS cs cur (c :: pend)
    else if 2 ≤ pend.length then cur.reverse :: splitWS cs [c] []
    else splitWS cs (c :: (pend ++ cur)) []

/-- The per-line body of the text fallback of `extract_table_from_pdf`
(streamlit_app.py lines 29-50): clean the line, skip empties and headers,
require a date match, split on two-or-more whitespace, require at least two
parts, take the first amount match (or empty), and join the middle parts as
the description.  Returns the row appended to `all_data`, or `none`. -/
def processTextLine (raw : String) : Option (List String) :=
  let l := cleanTextL raw.data
  if l.isEmpty || containsSub l (String.data "Date")
      || containsSub l (String.data "Transaction Details") then none
  else
    match findFirstDate l with
    | none => none
    | some d =>
      let parts := splitWS l [] []
      if 2 ≤ parts.length then
        let amount := (findFirstAmount l).getD []
        let description :=
          if 2 < parts.length then intercalateSp (parts.drop 1).dropLast
          else parts.getD 1 []
        some [String.mk d, String.mk description, String.mk amount]
      else none

/-- The cell cleaning of the structured-table branch (line 56): keep truthy
cells (`if cell` drops `None` and empty strings) and clean each. -/
def cleanedCells (row : List (Option String)) : List String :=
  row.filterMap (fun c =>
    match c with
    | none => none
    | some s => if s.isEmpty then none else some (clean_text s))

/-- The per-row body of the structured-table branch of
`extract_table_from_pdf` (streamlit_app.py lines 53-60): the row filter
(`if cleaned_row and any(cleaned_row)`) followed by the date guard; returns
the row appended to `all_data`, or `none`. -/
def processTableRow (row : List (Option String)) : Option (List String) :=
  if !(cleanedCells row).isEmpty && (cleanedCells row).any (fun s => !s.isEmpty) then
    if (cleanedCells row).any (fun s => (findFirstDate s.data).isSome) then
      some (cleanedCells row)
    else none
  else none

/-- One `pdfplumber` page as the code reads it: `page.extract_tables()`
(a list of tables, each a list of rows of optional cells) and
`page.extract_text()` (a string, possibly empty). -/
structure Page where
  tables : List (List (List (Option String)))
  text : String
deriving DecidableEq

/-- One uploaded byte stream: either not a valid PDF (`pdfplumber.open`
raises on line 18) or a valid document with its pages. -/
inductive PdfDoc where
  | malformed : PdfDoc
  | valid : List Page → PdfDoc

/-- The rows one page contributes to `all_data` (lines 19-60): the text
fallback runs only when `extract_tables` found nothing. -/
def pageData (pg : Page) : List (List String) :=
  if pg.tables.isEmpty then
    ((pg.text.splitOn "\n").filterMap processTextLine)
  else
    (pg.tables.map (fun t => t.filterMap processTableRow)).flatten

/-- `all_data` accumulated over all pages (lines 16-60). -/
def extractAllData (pages : List Page) : List (List String) :=
  (pages.map pageData).flatten

/-- The number of columns `pd.DataFrame(all_data)` infers: the longest row. -/
def maxWidth (data : List (List String)) : Nat :=
  data.foldr (fun r m => max r.length m) 0

/-- The `DataFrame` shaping of lines 67-78: a row is padded with `NaN`
(`none`) to the frame width, truncated to three columns if wider
(`df.iloc[:, :3]`), and the frame is padded with empty-string columns
(`df[i] = ''`) if narrower. -/
def buildRow (width : Nat) (r : List String) : List (Option String) :=
  ((r.map some ++ List.replicate (width - r.length) none).take (min width 3))
    ++ List.replicate (3 - width) (some "")

/-- The resulting `DataFrame`: its column labels and its rows. -/
structure DF where
  header : List String
  rows : List (List (Option String))
deriving DecidableEq

/-- `extract_table_from_pdf` (streamlit_app.py lines 14-79).  A malformed
byte stream makes `pdfplumber.open` raise; nothing in the function catches,
so the exception propagates (`Except.error`).  Otherwise the function
returns `None` when `all_data` is empty, else the shaped `DataFrame` with
columns `Date, Description, Amount`. -/
def extract_table_from_pdf : PdfDoc → Except String (Option DF)
  | .malformed => .error "PDFSyntaxError"
  | .valid pages =>
    if (extractAllData pages).isEmpty then .ok none
    else .ok (some ⟨["Date", "Description", "Amount"],
                    (extractAllData pages).map (buildRow (maxWidth (extractAllData pages)))⟩)

/-! ### The normalizer (`process_credit_card_bill`, lines 81-106) -/

/-- Days in a month, as `datetime.date` validates (Gregorian leap rule). -/
def daysInMonth (y m : Nat) : Nat :=
  if m = 2 then
    (if (y % 4 = 0 && y % 100 ≠ 0) || y % 400 = 0 then 29 else 28)
  else if m = 4 || m = 6 || m = 9 || m = 11 then 30 else 31

/-- CPython `_strptime` field for `%d` (`3[01]|[12]\d|0[1-9]|[1-9]`) and
`%m` (`1[0-2]|0[1-9]|[1-9]`): a two-digit value in `1..maxv`, else a single
digit `1..9`.  No further backtracking is possible: if two digits are
present the one-digit alternative would next require `/` at a digit. -/
def parse2or1 (maxv : Nat) : List Char → Option (Nat × List Char)
  | a :: b :: rest =>
    if isDigitC a && isDigitC b then
      if 1 ≤ 10 * digitVal a + digitVal b ∧ 10 * digitVal a + digitVal b ≤ maxv then
        some (10 * digitVal a + digitVal b, rest)
      else if 1 ≤ digitVal a ∧ digitVal a ≤ 9 then some (digitVal a, b :: rest)
      else none
    else if isDigitC a && decide (1 ≤ digitVal a ∧ digitVal a ≤ 9) then
      some (digitVal a, b :: rest)
    else none
  | [a] =>
    if isDigitC a && decide (1 ≤ digitVal a ∧ digitVal a ≤ 9) then
      some (digitVal a, [])
    else none
  | [] => none

/-- `pd.to_datetime(s, format='%d/%m/%Y')` on one string (line 94):
pandas delegates to CPython `_strptime`s `TimeRE`, so `%d` and `%m` accept
one or two digits, `%Y` exactly four digits, the whole string must be
consumed, and the resulting calendar date must exist. -/
def strptimeDMY (s : String) : Option (Nat × Nat × Nat) :=
  match parse2or1 31 s.data with
  | none => none
  | some (d, r1) =>
    match r1 with
    | '/' :: r2 =>
      match parse2or1 12 r2 with
      | none => none
      | some (m, r3) =>
        match r3 with
        | '/' :: y1 :: y2 :: y3 :: y4 :: rest =>
          if isDigitC y1 && isDigitC y2 && isDigitC y3 && isDigitC y4 && rest.isEmpty then
            let y := 1000 * digitVal y1 + 100 * digitVal y2 + 10 * digitVal y3 + digitVal y4
            if d ≤ daysInMonth y m then some (d, m, y) else none
          else none
        | _ => none
    | _ => none

/-- Zero-padded two-digit decimal rendering. -/
def pad2 (n : Nat) : String :=
  if n < 10 then "0" ++ toString n else toString n

/-- Zero-padded four-digit decimal rendering. -/
def pad4 (n : Nat) : String :=
  if n < 10 then "000" ++ toString n
  else if n < 100 then "00" ++ toString n
  else if n < 1000 then "0" ++ toString n
  else toString n

/-- `.dt.strftime('%Y-%m-%d')` (line 95) applied to a parsed date. -/
def isoDMY (dmy : Nat × Nat × Nat) : String :=
  pad4 dmy.2.2 ++ "-" ++ pad2 dmy.2.1 ++ "-" ++ pad2 dmy.1

/-- The whole date step of lines 93-97 on one string cell: parse with the
single format `%d/%m/%Y` (`errors='coerce'` turns failure into `NaT`,
i.e. `none`) and render as ISO. -/
def parseDateStr (s : String) : Option String :=
  (strptimeDMY s).map isoDMY

/-- Date step on a cell that may already be `NaN`. -/
def parseDateCell (c : Option String) : Option String :=
  c.bind parseDateStr

/-- `df['Amount'].replace('[\$,]', '', regex=True)` (line 100): delete every
`$` and `,` character. -/
def stripDollarComma (s : String) : String :=
  ⟨s.data.filter (fun c => !(c = '$' || c = ','))⟩

/-- Digits folded to a natural number. -/
def natOfDigits (l : List Char) : Nat :=
  l.foldl (fun a c => 10 * a + digitVal c) 0

/-- Exponent suffix of a Python float literal: optional sign then digits;
returned as (negative?, magnitude). -/
def parseExpoN (l : List Char) : Option (Bool × Nat) :=
  let signAndRest : Bool × List Char :=
    match l with
    | '-' :: r => (true, r)
    | '+' :: r => (false, r)
    | r => (false, r)
  let r := signAndRest.2
  if r.isEmpty || !r.all isDigitC then none
  else some (signAndRest.1, natOfDigits r)

/-- Scale an (unsigned numerator, denominator) pair by `10 ^ e` or its
reciprocal. -/
def applyExpo (nd : Nat × Nat) (ex : Bool × Nat) : Nat × Nat :=
  if ex.1 then (nd.1, nd.2 * 10 ^ ex.2) else (nd.1 * 10 ^ ex.2, nd.2)

/-- Unsigned decimal body of the numeric grammar accepted by
`pd.to_numeric` on strings: `digits`, `digits.digits?`, `.digits`, each with
an optional exponent; the value is returned as an exact (numerator,
denominator) pair.  (`inf`/`nan` keywords are not modelled; no cell the
claims touch produces them.) -/
def parseDecimal (l : List Char) : Option (Nat × Nat) :=
  let intp := l.takeWhile isDigitC
  match l.drop intp.length with
  | [] => if intp.isEmpty then none else some (natOfDigits intp, 1)
  | '.' :: rest2 =>
    let frac := rest2.takeWhile isDigitC
    if intp.isEmpty && frac.isEmpty then none
    else
      let base : Nat × Nat :=
        (natOfDigits intp * 10 ^ frac.length + natOfDigits frac, 10 ^ frac.length)
      match rest2.drop frac.length with
      | [] => some base
      | e :: rest4 =>
        if e = 'e' || e = 'E' then (parseExpoN rest4).map (applyExpo base) else none
  | e :: rest2 =>
    if (e = 'e' || e = 'E') && !intp.isEmpty then
      (parseExpoN rest2).map (applyExpo (natOfDigits intp, 1))
    else none

/-- `pd.to_numeric(s, errors='coerce')` on one string (line 101): strip
surrounding whitespace, an optional single sign, then a decimal body;
anything else coerces to `NaN` (`none`).  The exact value is formed with
`mkRat`. -/
def pyToNumeric (s : String) : Option ℚ :=
  let t := ((s.data.dropWhile isPySpace).reverse.dropWhile isPySpace).reverse
  match t with
  | '-' :: r => (parseDecimal r).map (fun nd => mkRat (-(nd.1 : Int)) nd.2)
  | '+' :: r => (parseDecimal r).map (fun nd => mkRat (nd.1 : Int) nd.2)
  | r => (parseDecimal r).map (fun nd => mkRat (nd.1 : Int) nd.2)

/-- The whole amount step of lines 100-101 on one string cell. -/
def parseAmountStr (s : String) : Option ℚ :=
  pyToNumeric (stripDollarComma s)

/-- Amount step on a cell that may already be `NaN`. -/
def parseAmountCell (c : Option String) : Option ℚ :=
  c.bind parseAmountStr

/-- A normalized row after the column coercions: ISO date or `NaT`,
description cell, numeric amount or `NaN`. -/
structure NRow where
  date : Option String
  desc : Option String
  amount : Option ℚ
deriving DecidableEq

/-- The two column coercions (lines 93-101) applied to one raw row;
column 0 is `Date`, 1 `Description`, 2 `Amount`. -/
def normRec (r : List (Option String)) : NRow :=
  { date := parseDateCell (r.getD 0 none)
  , desc := r.getD 1 none
  , amount := parseAmountCell (r.getD 2 none) }

/-- `df.dropna(how='all')` (line 87): drop rows whose cells are all `NaN`
(empty strings are not `NaN` and are kept). -/
def dropAllNaN (rows : List (List (Option String))) : List (List (Option String)) :=
  rows.filter (fun r => !(r.all Option.isNone))

/-- Helper of `drop_duplicates`: keep the first occurrence of each row. -/
def dedupAux {α : Type} [DecidableEq α] : List α → List α → List α
  | [], _ => []
  | r :: rs, seen => if r ∈ seen then dedupAux rs seen else r :: dedupAux rs (r :: seen)

/-- `df.drop_duplicates()` (line 90): drop later exact duplicates
(pandas compares `NaN` equal to `NaN` here, as `Option` equality does). -/
def dropDups (rows : List (List (Option String))) : List (List (Option String)) :=
  dedupAux rows []

/-- `df.dropna(subset=['Date', 'Amount'])` (line 104). -/
def dropInvalid (ns : List NRow) : List NRow :=
  ns.filter (fun n => n.date.isSome && n.amount.isSome)

/-- `process_credit_card_bill` (streamlit_app.py lines 81-106): `None` in,
`None` out; otherwise drop all-`NaN` rows, drop duplicates, coerce the two
columns, and drop rows with an unparseable date or amount. -/
def process_credit_card_bill (odf : Option DF) : Option (List NRow) :=
  odf.map (fun df => dropInvalid ((dropDups (dropAllNaN df.rows)).map normRec))

/-- The extraction-and-normalization pipeline as `main` runs it
(lines 138-141): extraction, then normalization of a non-`None` frame.
Exceptions raised inside either stage propagate. -/
def pipeline (doc : PdfDoc) : Except String (Option (List NRow)) :=
  (extract_table_from_pdf doc).map process_credit_card_bill

/-- Does an `Except` hold a value (no exception escaped)? -/
def exceptOk {ε α : Type} : Except ε α → Bool
  | .ok _ => true
  | .error _ => false

/-- The presentation shell around the pipeline (`main`, lines 134-166): the
blanket `except` is the only handler; `None` and empty results become the
two `st.error` messages. -/
def mainRender (doc : PdfDoc) : String :=
  match pipeline doc with
  | .error e => "Error processing file: " ++ e
  | .ok none => "No transaction data found in the PDF."
  | .ok (some l) => if l.isEmpty then "Could not process the data after extraction." else "success"

/-- Occurrence count with decidable equality (used to state deduplication). -/
def countEq {α : Type} [DecidableEq α] (a : α) : List α → Nat
  | [] => 0
  | b :: t => (if b = a then 1 else 0) + countEq a t

/-! ### OCR fallback, modelled from the spec

Modelled from the spec: the OCR Fallback Engine of section 4.2 (page
rasterization, single-channel conversion, fixed binarization threshold,
recognition, document-level failure policy) has no code under `src/`; the
definitions below follow the spec text.  Recognition itself is an abstract
function parameter. -/

/-- Modelled from the spec: one rasterized page, already converted to
single-channel intensity values; `none` models a rasterization error. -/
structure OcrPage where
  raster : Option (List Nat)
deriving DecidableEq

/-- Modelled from the spec: the fixed binarization threshold — pixel value
above 200 becomes white (255), else black (0). -/
def threshold (p : Nat) : Nat :=
  if 200 < p then 255 else 0

/-- Modelled from the spec: preprocessing of one page image before
recognition. -/
def binarize (img : List Nat) : List Nat :=
  img.map threshold

/-- Modelled from the spec: recognize one page after preprocessing; a
rasterization or recognition error yields `none`. -/
def ocrPage (recog : List Nat → Option String) (pg : OcrPage) : Option String :=
  pg.raster.bind (fun img => recog (binarize img))

/-- Modelled from the spec: document-level OCR — every page is recognized,
and any page failure is caught and reported as no data extracted (`none`)
for the whole document. -/
def ocrDocument (recog : List Nat → Option String) : List OcrPage → Option (List String)
  | [] => some []
  | pg :: t =>
    match ocrPage recog pg with
    | none => none
    | some s => (ocrDocument recog t).map (fun r => s :: r)

/-- Modelled from the spec: one page of a document as the OCR-aware
extractor sees it — an optional extractable text layer, plus the page image
for the OCR path. -/
structure ScanPage where
  text : Option String
  ocr : OcrPage
deriving DecidableEq

/-- Modelled from the spec: the extractor invokes the OCR fallback exactly
when no page of the document yields extractable text; otherwise it returns
the text layers. -/
def extractWithOcrFallback (recog : List Nat → Option String)
    (pgs : List ScanPage) : Option (List String) :=
  if pgs.all (fun pg => pg.text.isNone) then ocrDocument recog (pgs.map (fun pg => pg.ocr))
  else some (pgs.filterMap (fun pg => pg.text))

/-- Auxiliary predicate: the list has no two adjacent whitespace
characters (the shape of every `clean_text` output). -/
def noTwoWS : List Char → Bool
  | a :: b :: rest => !(isPySpace a && isPySpace b) && noTwoWS (b :: rest)
  | _ => true

/-- Auxiliary predicate: the head, if any, is not whitespace. -/
def headNonWS : List Char → Bool
  | [] => true
  | c :: _ => !(isPySpace c)

/-! ### Sample inputs used by witnesses and counterexamples -/

/-- The spec example line of the text fallback. -/
def sampleLine : String := "15/03/2024  AMAZON PURCHASE  1,250.00"

/-- A table row that parses cleanly. -/
def rowCoffee : List (Option String) :=
  [some ("15/03/2024"), some ("COFFEE"), some ("120.00")]

/-- A table row whose date and amount are unparseable. -/
def rowBad : List (Option String) :=
  [some ("abc"), some ("x"), some ("abc")]

/-- The canonical header the code assigns. -/
def hdr3 : List String := ["Date", "Description", "Amount"]

/-! ### Helper lemmas: `clean_text` leaves no two adjacent whitespace
characters, so `re.split(r'\s{2,}')` on a cleaned line always returns a
single part and the text fallback appends no row. -/

theorem noTwoWS_tail {a : Char} {l : List Char} (h : noTwoWS (a :: l) = true) :
    noTwoWS l = true := by
  cases l with
  | nil => rfl
  | cons b t =>
    unfold noTwoWS at h
    exact (Bool.and_eq_true_iff.mp h).2

theorem noTwoWS_cons_nonws {a : Char} (ha : isPySpace a = false) {l : List Char}
    (hl : noTwoWS l = true) : noTwoWS (a :: l) = true := by
  cases l with
  | nil => rfl
  | cons b t =>
    unfold noTwoWS
    simp [ha, hl]

theorem noTwoWS_cons_headok (a : Char) {l : List Char} (hh : headNonWS l = true)
    (hl : noTwoWS l = true) : noTwoWS (a :: l) = true := by
  cases l with
  | nil => rfl
  | cons b t =>
    unfold noTwoWS
    unfold headNonWS at hh
    simp at hh
    simp [hh, hl]

theorem noTwoWS_append_word {w : List Char} (hw : ∀ c ∈ w, isPySpace c = false)
    {u : List Char} (hu : noTwoWS u = true) : noTwoWS (w ++ u) = true := by
  induction w with
  | nil => simpa using hu
  | cons a t ih =>
    have ha : isPySpace a = false := hw a (List.mem_cons_self a t)
    have ht : ∀ c ∈ t, isPySpace c = false := fun c hc => hw c (List.mem_cons_of_mem a hc)
    exact noTwoWS_cons_nonws ha (ih ht)

theorem wordsAux_sound (cs : List Char) :
    ∀ acc, (∀ c ∈ acc, isPySpace c = false) →
      ∀ w ∈ wordsAux cs acc, w ≠ [] ∧ ∀ c ∈ w, isPySpace c = false := by
  induction cs with
  | nil =>
    intro acc hacc w hw
    unfold wordsAux at hw
    simp at hw
    obtain ⟨hne, hwe⟩ := hw
    subst hwe
    exact ⟨by simpa using hne, fun c hc => hacc c (List.mem_reverse.mp hc)⟩
  | cons c cs ih =>
    intro acc hacc w hw
    unfold wordsAux at hw
    by_cases hws : isPySpace c = true
    · rw [if_pos hws] at hw
      by_cases he : acc = []
      · rw [if_pos (by simp [he] : acc.isEmpty = true)] at hw
        exact ih [] (by simp) w hw
      · rw [if_neg (by simp [he] : ¬ acc.isEmpty = true)] at hw
        rcases List.mem_cons.mp hw with hw | hw
        · subst hw
          exact ⟨by simpa using he, fun x hx => hacc x (List.mem_reverse.mp hx)⟩
        · exact ih [] (by simp) w hw
    · rw [if_neg hws] at hw
      refine ih (c :: acc) ?_ w hw
      intro x hx
      rcases List.mem_cons.mp hx with hx | hx
      · subst hx
        simpa using hws
      · exact hacc x hx

theorem headNonWS_intercalateSp (ws : List (List Char))
    (h : ∀ w ∈ ws, w ≠ [] ∧ ∀ c ∈ w, isPySpace c = false) :
    headNonWS (intercalateSp ws) = true := by
  match ws with
  | [] => rfl
  | [w] =>
    obtain ⟨hne, hc⟩ := h w (List.mem_cons_self w [])
    match w, hne with
    | a :: t, _ =>
      show headNonWS (a :: t) = true
      unfold headNonWS
      simp [hc a (List.mem_cons_self a t)]
  | w :: x :: t =>
    obtain ⟨hne, hc⟩ := h w (List.mem_cons_self w (x :: t))
    match w, hne with
    | a :: t2, _ =>
      show headNonWS ((a :: t2) ++ ' ' :: intercalateSp (x :: t)) = true
      unfold headNonWS
      simp [hc a (List.mem_cons_self a t2)]

theorem noTwoWS_intercalateSp (ws : List (List Char))
    (h : ∀ w ∈ ws, w ≠ [] ∧ ∀ c ∈ w, isPySpace c = false) :
    noTwoWS (intercalateSp ws) = true := by
  induction ws with
  | nil => rfl
  | cons w t ih =>
    cases t with
    | nil =>
      obtain ⟨hne, hc⟩ := h w (List.mem_cons_self w [])
      have : noTwoWS (w ++ []) = true := noTwoWS_append_word hc rfl
      simpa using this
    | cons x t2 =>
      show noTwoWS (w ++ ' ' :: intercalateSp (x :: t2)) = true
      obtain ⟨hne, hc⟩ := h w (List.mem_cons_self w (x :: t2))
      have hrest : ∀ v ∈ x :: t2, v ≠ [] ∧ ∀ c ∈ v, isPySpace c = false :=
        fun v hv => h v (List.mem_cons_of_mem w hv)
      refine noTwoWS_append_word hc ?_
      exact noTwoWS_cons_headok ' ' (headNonWS_intercalateSp _ hrest) (ih hrest)

theorem cleanTextL_noTwoWS (l : List Char) : noTwoWS (cleanTextL l) = true :=
  noTwoWS_intercalateSp _ (wordsAux_sound l [] (by simp))

theorem splitWS_len (l : List Char) :
    ∀ cur pend, noTwoWS l = true → pend.length ≤ 1 →
      (pend.length = 1 → headNonWS l = true) →
      (splitWS l cur pend).length = 1 := by
  induction l with
  | nil =>
    intro cur pend _ hp _
    unfold splitWS
    have : ¬ 2 ≤ pend.length := by omega
    simp [this]
  | cons c cs ih =>
    intro cur pend hnt hp hh
    unfold splitWS
    by_cases hws : isPySpace c = true
    · simp [hws]
      have hpend : pend = [] := by
        cases pend with
        | nil => rfl
        | cons p t =>
          have h1 : (p :: t).length = 1 := by
            have := List.length_cons p t
            omega
          have := hh h1
          unfold headNonWS at this
          simp [hws] at this
      subst hpend
      refine ih cur [c] (noTwoWS_tail hnt) (by simp) ?_
      intro _
      cases cs with
      | nil => rfl
      | cons d t =>
        unfold noTwoWS at hnt
        have := (Bool.and_eq_true_iff.mp hnt).1
        unfold headNonWS
        simp [hws] at this ⊢
        exact this
    · simp [hws]
      have : ¬ 2 ≤ pend.length := by omega
      simp [this]
      exact ih (c :: (pend ++ cur)) [] (noTwoWS_tail hnt) (by simp) (by simp)

theorem processTextLine_none (raw : String) : processTextLine raw = none := by
  unfold processTextLine
  set l := cleanTextL raw.data with hl
  by_cases hskip : (l.isEmpty || containsSub l (String.data "Date")
      || containsSub l (String.data "Transaction Details")) = true
  · simp [hskip]
  · simp only [Bool.not_eq_true] at hskip
    simp [hskip]
    cases hfd : findFirstDate l with
    | none => simp
    | some d =>
      have hlen : (splitWS l [] []).length = 1 := by
        refine splitWS_len l [] [] ?_ (by simp) (by simp)
        rw [hl]
        exact cleanTextL_noTwoWS _
      have : ¬ 2 ≤ (splitWS l [] []).length := by omega
      simp [this]

/-! ### Helper lemmas: occurrence counts through filter, dedup and map -/

theorem countEq_filter {α : Type} [DecidableEq α] (p : α → Bool) (a : α)
    (h : p a = true) : ∀ l, countEq a (l.filter p) = countEq a l := by
  intro l
  induction l with
  | nil => rfl
  | cons b t ih =>
    by_cases hb : p b = true
    · simp [List.filter_cons, hb, countEq, ih]
    · have hba : ¬ b = a := fun he => hb (he ▸ h)
      simp [List.filter_cons, hb, countEq, ih, hba]

theorem countEq_pos_mem {α : Type} [DecidableEq α] {a : α} :
    ∀ {l : List α}, 1 ≤ countEq a l → a ∈ l := by
  intro l
  induction l with
  | nil => intro h; simp [countEq] at h
  | cons b t ih =>
    intro h
    by_cases hb : b = a
    · exact hb ▸ List.mem_cons_self b t
    · simp [countEq, hb] at h
      exact List.mem_cons_of_mem b (ih h)

theorem mem_of_mem_dedupAux {α : Type} [DecidableEq α] {x : α} :
    ∀ {l seen : List α}, x ∈ dedupAux l seen → x ∈ l := by
  intro l
  induction l with
  | nil => intro seen h; simp [dedupAux] at h
  | cons r rs ih =>
    intro seen h
    unfold dedupAux at h
    by_cases hr : r ∈ seen
    · simp [hr] at h
      exact List.mem_cons_of_mem r (ih h)
    · simp [hr] at h
      rcases h with h | h
      · exact h ▸ List.mem_cons_self r rs
      · exact List.mem_cons_of_mem r (ih h)

theorem countEq_dedupAux_mem_seen {α : Type} [DecidableEq α] (a : α) :
    ∀ (l seen : List α), a ∈ seen → countEq a (dedupAux l seen) = 0 := by
  intro l
  induction l with
  | nil => intro seen _; rfl
  | cons r rs ih =>
    intro seen ha
    unfold dedupAux
    by_cases hr : r ∈ seen
    · simp [hr]
      exact ih seen ha
    · have hra : ¬ r = a := fun he => hr (he ▸ ha)
      simp [hr, countEq, hra]
      exact ih (r :: seen) (List.mem_cons_of_mem r ha)

theorem countEq_dedupAux_not_seen {α : Type} [DecidableEq α] (a : α) :
    ∀ (l seen : List α), a ∉ seen →
      countEq a (dedupAux l seen) = if a ∈ l then 1 else 0 := by
  intro l
  induction l with
  | nil => intro seen _; simp [dedupAux, countEq]
  | cons r rs ih =>
    intro seen ha
    unfold dedupAux
    by_cases hr : r ∈ seen
    · rw [if_pos hr, ih seen ha]
      have hra : ¬ a = r := fun he => ha (he ▸ hr)
      simp [List.mem_cons, hra]
    · rw [if_neg hr]
      by_cases hre : r = a
      · subst hre
        have h0 : countEq r (dedupAux rs (r :: seen)) = 0 :=
          countEq_dedupAux_mem_seen r rs (r :: seen) (List.mem_cons_self r seen)
        simp [countEq, h0, List.mem_cons]
      · have hna : a ∉ r :: seen := by
          intro hmem
          rcases List.mem_cons.mp hmem with h | h
          · exact hre h.symm
          · exact ha h
        have hra : ¬ a = r := fun he => hre he.symm
        simp [countEq, hre, ih (r :: seen) hna, List.mem_cons, hra]

theorem countEq_map_injOn {α β : Type} [DecidableEq α] [DecidableEq β]
    (f : α → β) (a : α) :
    ∀ l : List α, (∀ x ∈ l, f x = f a → x = a) →
      countEq (f a) (l.map f) = countEq a l := by
  intro l
  induction l with
  | nil => intro _; rfl
  | cons b t ih =>
    intro hinj
    have ht : ∀ x ∈ t, f x = f a → x = a :=
      fun x hx => hinj x (List.mem_cons_of_mem b hx)
    by_cases hb : b = a
    · subst hb
      simp [countEq, ih ht]
    · have hfb : ¬ f b = f a := fun he => hb (hinj b (List.mem_cons_self b t) he)
      simp [countEq, hb, hfb, ih ht]

/-! ### Helper lemmas: the `DataFrame` shaping of lines 62-78 -/

theorem le_maxWidth {row : List String} :
    ∀ {data : List (List String)}, row ∈ data → row.length ≤ maxWidth data := by
  intro data
  induction data with
  | nil => intro h; simp at h
  | cons r rs ih =>
    intro h
    unfold maxWidth
    simp only [List.foldr]
    rcases List.mem_cons.mp h with h | h
    · subst h
      exact Nat.le_max_left _ _
    · have := ih h
      unfold maxWidth at this
      exact Nat.le_trans this (Nat.le_max_right _ _)

theorem buildRow_length {width : Nat} {r : List String} (h : r.length ≤ width) :
    (buildRow width r).length = 3 := by
  unfold buildRow
  have hbase : (r.map some ++ List.replicate (width - r.length)
      (none : Option String)).length = width := by
    simp [List.length_append, List.length_map, List.length_replicate]
    omega
  by_cases h3 : width ≤ 3
  · simp [List.length_append, List.length_take, List.length_replicate, hbase]
    omega
  · simp [List.length_append, List.length_take, List.length_replicate, hbase]
    omega

theorem take3_of_long {α : Type} (l₁ l₂ : List α) (h : 3 ≤ l₁.length) :
    (l₁ ++ l₂).take 3 = l₁.take 3 := by
  exact List.take_append_of_le_length h

theorem buildRow_truncates {width : Nat} {r : List String}
    (h3 : 3 ≤ r.length) (hw : r.length ≤ width) :
    buildRow width r = (r.take 3).map some := by
  unfold buildRow
  have hmin : min width 3 = 3 := by omega
  have hz : 3 - width = 0 := by omega
  rw [hmin, hz, List.replicate_zero, List.append_nil]
  rw [take3_of_long _ _ (by simpa using h3)]
  rw [List.map_take]

theorem buildRow_pads {width : Nat} {r : List String}
    (hw3 : width < 3) (hr : r.length ≤ width) :
    buildRow width r = r.map some ++ List.replicate (width - r.length) none
      ++ List.replicate (3 - width) (some "") := by
  unfold buildRow
  have hmin : min width 3 = width := by omega
  rw [hmin]
  have hbase : (r.map some ++ List.replicate (width - r.length)
      (none : Option String)).length ≤ width := by
    simp [List.length_append, List.length_map, List.length_replicate]
    omega
  rw [List.take_of_length_le hbase, List.append_assoc]

/-- If every cell of a row is `NaN`, its first cell is `NaN`. -/
theorem allNone_getD {r : List (Option String)} (h : r.all Option.isNone = true) :
    r.getD 0 none = none := by
  cases r with
  | nil => rfl
  | cons a t =>
    simp [List.all_cons] at h
    have ha := h.1
    cases a with
    | none => rfl
    | some s => simp [Option.isNone] at ha

/-- A failing page makes the whole modelled OCR document fail. -/
theorem ocrDocument_none (recog : List Nat → Option String) :
    ∀ (l : List OcrPage) (pg : OcrPage), pg ∈ l → ocrPage recog pg = none →
      ocrDocument recog l = none := by
  intro l
  induction l with
  | nil => intro pg h; simp at h
  | cons q t ih =>
    intro pg hmem hnone
    unfold ocrDocument
    rcases List.mem_cons.mp hmem with h | h
    · subst h
      rw [hnone]
    · cases hq : ocrPage recog q with
      | none => rfl
      | some s =>
        rw [ih pg h hnone]
        rfl

/-! ### The claims -/

/-- Claim C1: the spec says the text-line fallback turns the line
"15/03/2024  AMAZON PURCHASE  1,250.00" into the raw row
["15/03/2024", "AMAZON PURCHASE", "1,250.00"].  The code appends no row at
all for this line: `clean_text` collapses the two-space separators to
single spaces before the split on two-or-more whitespace, so the split
yields one part and the parts-length guard fails.  This theorem evaluates
the embedded per-line parser at that exact line. -/
theorem c1_line_yields_no_row : processTextLine sampleLine = none := by decide

/-- Claim C2 counterexample: the claim says "15/03/24" normalizes to
2024-03-15 via a DD/MM/YY fallback; the code parses with the single format
`%d/%m/%Y`, so "15/03/24" is unparseable and its row is dropped. -/
theorem c2_counterexample :
    parseDateStr ("15/03/24") ≠ some ("2024-03-15")
    ∧ process_credit_card_bill
        (some ⟨hdr3, [[some ("15/03/24"), some ("SHOP"), some ("100.00")]]⟩)
      = some [] :=
  ⟨by decide, by decide⟩

/-- Claim C2 (amended): the Normalizer parses the date field with the
single format DD/MM/YYYY (no DD/MM/YY fallback): "15/03/2024" → 2024-03-15,
while "15/03/24" and "32/13/2024" are unparseable and their rows are
dropped from the output table. -/
theorem c2_amended :
    parseDateStr ("15/03/2024") = some ("2024-03-15")
    ∧ parseDateStr ("15/03/24") = none
    ∧ parseDateStr ("32/13/2024") = none
    ∧ process_credit_card_bill (some ⟨hdr3,
        [[some ("15/03/2024"), some ("OK"), some ("450.00")],
         [some ("32/13/2024"), some ("BAD"), some ("450.00")],
         [some ("15/03/24"), some ("SHORT"), some ("450.00")]]⟩)
      = some [⟨some ("2024-03-15"), some ("OK"), some ((450 : ℚ))⟩] :=
  ⟨by decide, by decide, by decide, by decide⟩

/-- Claim C3 counterexample: the claim says "Rs. 1,234.56" parses to
1234.56; the code deletes only `$` and `,` (not all non-numeric
characters), leaving "Rs. 1234.56", which `to_numeric` cannot parse, so the
row is dropped. -/
theorem c3_counterexample :
    parseAmountStr ("Rs. 1,234.56") ≠ some (mkRat 123456 100)
    ∧ process_credit_card_bill
        (some ⟨hdr3, [[some ("15/03/2024"), some ("X"), some ("Rs. 1,234.56")]]⟩)
      = some [] :=
  ⟨by decide, by decide⟩

/-- Claim C3 (amended): the Normalizer strips only `$` and `,` characters
from the amount field before numeric parsing: "-500.00" → -500.00 and
"abc" is unparseable (row dropped) as claimed, but "Rs. 1,234.56" becomes
"Rs. 1234.56", fails to parse, and its row is dropped. -/
theorem c3_amended :
    stripDollarComma ("Rs. 1,234.56") = "Rs. 1234.56"
    ∧ parseAmountStr ("Rs. 1,234.56") = none
    ∧ parseAmountStr ("-500.00") = some ((-500 : ℚ))
    ∧ parseAmountStr ("abc") = none
    ∧ parseAmountStr ("1,250.00") = some ((1250 : ℚ))
    ∧ process_credit_card_bill
        (some ⟨hdr3, [[some ("15/03/2024"), some ("X"), some ("Rs. 1,234.56")]]⟩)
      = some [] :=
  ⟨by decide, by decide, by decide, by decide, by decide, by decide⟩

/-- Claim C4 counterexample: the claim says no exception ever escapes the
pipeline; for a malformed byte stream `pdfplumber.open` raises inside
`extract_table_from_pdf`, which contains no handler, so the pipeline
returns an error, not a taxonomy value. -/
theorem c4_counterexample : exceptOk (pipeline PdfDoc.malformed) = false := rfl

/-- Claim C4 (amended): the pipeline functions contain no error handling
and no failure taxonomy exists in the code: a malformed document makes the
exception escape the pipeline and only the presentation shell's blanket
handler turns it into a message, while within a valid document every
failure path resolves to a `None`/empty result. -/
theorem c4_amended :
    extract_table_from_pdf PdfDoc.malformed = Except.error ("PDFSyntaxError")
    ∧ (∀ pages : List Page, exceptOk (extract_table_from_pdf (PdfDoc.valid pages)) = true)
    ∧ mainRender PdfDoc.malformed = "Error processing file: PDFSyntaxError" := by
  refine ⟨rfl, ?_, rfl⟩
  intro pages
  simp only [extract_table_from_pdf]
  by_cases hemp : (extractAllData pages).isEmpty = true
  · rw [if_pos hemp]
    rfl
  · rw [if_neg hemp]
    rfl

/-- Claim C5 counterexample: the claim says a table with two identical raw
rows yields exactly one corresponding record; if the duplicated row has an
unparseable date and amount the output has zero records.  Also, the first
normalizer step (`dropna(how='all')`) drops all-`NaN` rows, not rows whose
fields are all empty strings. -/
theorem c5_counterexample :
    process_credit_card_bill (some ⟨hdr3, [rowBad, rowBad]⟩) = some []
    ∧ dropAllNaN [[some "", some "", some ""]] = [[some "", some "", some ""]] :=
  ⟨by decide, by decide⟩

/-- Claim C5 (amended): the Normalizer applies, in order: drop all-`NaN`
rows, drop exact duplicates, parse dates, parse amounts, drop rows with an
unparseable date or amount.  For a table containing a raw row at least
twice whose date and amount both parse and to whose normalized record no
other raw row collides, the output contains that record exactly once. -/
theorem c5_amended (df : DF) (r : List (Option String))
    (hdup : 2 ≤ countEq r df.rows)
    (hd : (normRec r).date.isSome = true)
    (ha : (normRec r).amount.isSome = true)
    (hinj : ∀ x ∈ df.rows, normRec x = normRec r → x = r) :
    process_credit_card_bill (some df)
      = some (dropInvalid ((dropDups (dropAllNaN df.rows)).map normRec))
    ∧ countEq (normRec r)
        (dropInvalid ((dropDups (dropAllNaN df.rows)).map normRec)) = 1 := by
  refine ⟨rfl, ?_⟩
  have hp : (!(r.all Option.isNone)) = true := by
    by_contra hq
    have hq2 : r.all Option.isNone = true := by simpa using hq
    have h0 : r.getD 0 none = none := allNone_getD hq2
    unfold normRec at hd
    rw [h0] at hd
    simp [parseDateCell] at hd
  have hfilter : countEq r (dropAllNaN df.rows) = countEq r df.rows :=
    countEq_filter _ r hp df.rows
  have hmem : r ∈ dropAllNaN df.rows := by
    apply countEq_pos_mem
    omega
  have hdedup : countEq r (dropDups (dropAllNaN df.rows)) = 1 := by
    unfold dropDups
    rw [countEq_dedupAux_not_seen r _ [] (by simp)]
    simp [hmem]
  have hinj2 : ∀ x ∈ dedupAux (dropAllNaN df.rows) [], normRec x = normRec r → x = r :=
    fun x hx => hinj x (List.mem_of_mem_filter (mem_of_mem_dedupAux hx))
  have hmap : countEq (normRec r) ((dropDups (dropAllNaN df.rows)).map normRec) = 1 := by
    unfold dropDups
    rw [countEq_map_injOn normRec r _ hinj2]
    exact hdedup
  have hv : (fun n => n.date.isSome && n.amount.isSome) (normRec r) = true := by
    simp [hd, ha]
  unfold dropInvalid
  rw [countEq_filter (fun n => n.date.isSome && n.amount.isSome) (normRec r) hv
    ((dropDups (dropAllNaN df.rows)).map normRec)]
  exact hmap

/-- Claim C5 witness: a concrete table with a duplicated parseable row. -/
theorem c5_witness :
    (2 ≤ countEq rowCoffee (DF.mk hdr3 [rowCoffee, rowCoffee]).rows)
    ∧ countEq (normRec rowCoffee)
        (dropInvalid ((dropDups (dropAllNaN (DF.mk hdr3
          [rowCoffee, rowCoffee]).rows)).map normRec)) = 1 :=
  ⟨by decide,
   (c5_amended (DF.mk hdr3 [rowCoffee, rowCoffee]) rowCoffee
      (by decide) (by decide) (by decide) (by decide)).2⟩

/-- Claim C6 counterexample: on a line with several amount-like substrings
the claim predicts the row [first date, between-substring trimmed, first
amount after the date], i.e. ["01/02/2024", "CASHBACK", "10.00"]; the code
produces no row at all for this line. -/
theorem c6_counterexample :
    processTextLine ("01/02/2024  CASHBACK 10.00 REWARD  2,500.00")
      ≠ some ["01/02/2024", "CASHBACK", "10.00"] := by decide

/-- Claim C6 (amended): the Row Parser as written contributes no row for
any line (the two-or-more-whitespace split runs after `clean_text` has
collapsed all whitespace, so its length guard always fails); moreover the
amount the code computes (line 45) is the first amount-pattern match
anywhere in the line — on "REF 99.99 ON 10/01/2024 AMT 222.22" it selects
"99.99", which precedes the first date match — and the would-be description
comes from the two-space split parts, not from the substring between the
date and amount tokens. -/
theorem c6_amended :
    (∀ line : String, processTextLine line = none)
    ∧ findFirstDate (cleanTextL (String.data "REF 99.99 ON 10/01/2024 AMT 222.22"))
      = some (String.data "10/01/2024")
    ∧ findFirstAmount (cleanTextL (String.data "REF 99.99 ON 10/01/2024 AMT 222.22"))
      = some (String.data "99.99") :=
  ⟨processTextLine_none, by decide, by decide⟩

/-- Claim C7: a text line lacking a date token or lacking an amount token
contributes zero raw rows and is discarded silently, not reported as an
error.  (It holds a fortiori: because of the collapsed-whitespace split,
no line whatsoever contributes a row.) -/
theorem c7_nontransaction_lines_discarded (line : String)
    (_h : (findFirstDate (cleanTextL line.data)).isSome = false
       ∨ (findFirstAmount (cleanTextL line.data)).isSome = false) :
    processTextLine line = none :=
  processTextLine_none line

/-- Claim C7 witness: a running-balance line with no date token. -/
theorem c7_witness :
    ((findFirstDate (cleanTextL (String.data "Opening Balance 7,500"))).isSome = false)
    ∧ processTextLine ("Opening Balance 7,500") = none :=
  ⟨by decide,
   c7_nontransaction_lines_discarded "Opening Balance 7,500" (Or.inl (by decide))⟩

/-- Claim C8 (spec-modelled, the OCR engine has no code under src): when no
page yields extractable text the extractor invokes the OCR fallback on
every page; any page whose rasterization fails makes the whole document
report no data (`none`) rather than an error; and preprocessing binarizes
each pixel with the fixed threshold (above 200 → white 255, else black 0). -/
theorem c8_ocr_fallback (recog : List Nat → Option String) (pgs : List ScanPage)
    (hall : pgs.all (fun pg => pg.text.isNone) = true) :
    extractWithOcrFallback recog pgs = ocrDocument recog (pgs.map (fun pg => pg.ocr))
    ∧ (∀ pg ∈ pgs, pg.ocr.raster = none → extractWithOcrFallback recog pgs = none)
    ∧ (∀ img : List Nat, binarize img = img.map (fun p => if 200 < p then 255 else 0)) := by
  refine ⟨?_, ?_, fun img => rfl⟩
  · unfold extractWithOcrFallback
    rw [if_pos hall]
  · intro pg hmem hrast
    unfold extractWithOcrFallback
    rw [if_pos hall]
    exact ocrDocument_none recog _ pg.ocr (List.mem_map_of_mem _ hmem)
      (by simp [ocrPage, hrast])

/-- Claim C8 witness: one textless page whose raster succeeds. -/
theorem c8_witness :
    (([⟨none, ⟨some [100, 250]⟩⟩] : List ScanPage).all (fun pg => pg.text.isNone) = true)
    ∧ extractWithOcrFallback (fun _ => some ("TXN")) [⟨none, ⟨some [100, 250]⟩⟩]
      = ocrDocument (fun _ => some ("TXN"))
          (([⟨none, ⟨some [100, 250]⟩⟩] : List ScanPage).map (fun pg => pg.ocr)) :=
  ⟨by decide, (c8_ocr_fallback (fun _ => some ("TXN")) [⟨none, ⟨some [100, 250]⟩⟩] (by decide)).1⟩

/-- Claim C9: every row the structured-table branch contributes to
`all_data` contains at least one cell with a date-pattern match; rows
without one (header rows included) are silently dropped. -/
theorem c9_table_rows_have_date (row : List (Option String)) (r : List String)
    (h : processTableRow row = some r) :
    ∃ c ∈ r, (findFirstDate c.data).isSome = true := by
  unfold processTableRow at h
  split at h
  · split at h
    · rename_i hdate
      have hr := Option.some.inj h
      subst hr
      exact List.any_eq_true.mp hdate
    · exact absurd h (by simp)
  · exact absurd h (by simp)

/-- Claim C9 witness: a parseable table row. -/
theorem c9_witness :
    processTableRow rowCoffee = some ["15/03/2024", "COFFEE", "120.00"]
    ∧ ∃ c ∈ (["15/03/2024", "COFFEE", "120.00"] : List String),
        (findFirstDate c.data).isSome = true :=
  ⟨by decide, c9_table_rows_have_date rowCoffee _ (by decide)⟩

/-- Claim C10: whenever extraction returns a non-empty result the frame has
exactly three columns labeled Date, Description, Amount; a raw row with
more than three cells is truncated to its first three (cells past the third
discarded, not merged), and a frame narrower than three columns is padded
with empty-string columns. -/
theorem c10_three_columns (pages : List Page) (df : DF)
    (h : extract_table_from_pdf (PdfDoc.valid pages) = Except.ok (some df)) :
    df.header = ["Date", "Description", "Amount"]
    ∧ (∀ r ∈ df.rows, r.length = 3)
    ∧ (∀ row ∈ extractAllData pages, 3 ≤ row.length →
        buildRow (maxWidth (extractAllData pages)) row = (row.take 3).map some)
    ∧ (maxWidth (extractAllData pages) < 3 → ∀ row ∈ extractAllData pages,
        buildRow (maxWidth (extractAllData pages)) row
          = row.map some ++ List.replicate (maxWidth (extractAllData pages) - row.length) none
            ++ List.replicate (3 - maxWidth (extractAllData pages)) (some "")) := by
  simp only [extract_table_from_pdf] at h
  split at h
  · exact absurd h (by simp)
  · have hdf : some (DF.mk ["Date", "Description", "Amount"]
        ((extractAllData pages).map (buildRow (maxWidth (extractAllData pages))))) = some df :=
      Except.ok.inj h
    have hdf2 := Option.some.inj hdf
    subst hdf2
    refine ⟨rfl, ?_, ?_, ?_⟩
    · intro r hr
      obtain ⟨row, hrow, hb⟩ := List.mem_map.mp hr
      subst hb
      exact buildRow_length (le_maxWidth hrow)
    · intro row hrow h3
      exact buildRow_truncates h3 (le_maxWidth hrow)
    · intro hw row hrow
      exact buildRow_pads hw (le_maxWidth hrow)

/-- Claim C10 witness: a one-page document whose single table row has four
cells; the output frame has the canonical header and three-cell rows. -/
theorem c10_witness :
    extract_table_from_pdf (PdfDoc.valid
        [⟨[[[some ("01/01/2024"), some ("Grocery"), some ("500.00"), some ("X123")]]], ""⟩])
      = Except.ok (some (DF.mk hdr3 [[some ("01/01/2024"), some ("Grocery"), some ("500.00")]]))
    ∧ (∀ r ∈ (DF.mk hdr3 [[some ("01/01/2024"), some ("Grocery"), some ("500.00")]]).rows,
        r.length = 3) :=
  ⟨rfl,
   (c10_three_columns
      [⟨[[[some ("01/01/2024"), some ("Grocery"), some ("500.00"), some ("X123")]]], ""⟩]
      (DF.mk hdr3 [[some ("01/01/2024"), some ("Grocery"), some ("500.00")]]) rfl).2.1⟩

end CreditCard
